import Mathlib

/-!
Verification of the employee-management spreadsheet-ingestion service.

The Go sources are shallowly embedded: pure string processing is translated
directly; the external storage engine (MySQL via gorm) is represented by the
sequence of per-record outcomes it produces, and the MySQL uniqueness
behaviour on the email column is modelled explicitly where a claim needs it.
-/

namespace EmpMgmt

/-- One employee record (struct `Employee` of package models, the related doc
in src/Dockerfile): ten text fields plus the numeric identifier assigned by
storage; the two gorm timestamp fields carry no validation and play no part
in any claim, so they are not modelled. -/
structure Employee where
  id : Nat
  firstName : String
  lastName : String
  companyName : String
  address : String
  city : String
  county : String
  postal : String
  phone : String
  email : String
  web : String
deriving Repr, DecidableEq

/-- A (field locator, message) pair (models.ValidationError). -/
structure ValidationError where
  field : String
  message : String
deriving Repr, DecidableEq

/-- Substring helper over character lists: does `l` start with `p`?
(models Go strings package behaviour used by the repo). -/
def startsWithChars : List Char → List Char → Bool
  | _, [] => true
  | [], _ :: _ => false
  | c :: cs, p :: ps => c == p && startsWithChars cs ps

/-- Does `l` contain `p` as a contiguous run? -/
def hasSubChars : List Char → List Char → Bool
  | [], p => startsWithChars [] p
  | c :: cs, p => startsWithChars (c :: cs) p || hasSubChars cs p

/-- strings.Contains from the Go standard library, for the substring tests
the repository performs on error text. -/
def containsSub (s pat : String) : Bool := hasSubChars s.data pat.data

/-- An ASCII whitespace character (the cells and headers the pipeline trims
are ASCII; Go strings.TrimSpace restricted to them). -/
def isSpaceChar (c : Char) : Bool := c == ' ' || c == '\t' || c == '\n' || c == '\r'

/-- Drops leading whitespace characters. -/
def dropWhileSpace : List Char → List Char
  | [] => []
  | c :: cs => if isSpaceChar c then dropWhileSpace cs else c :: cs

/-- strings.TrimSpace: removes leading and trailing whitespace. -/
def trimString (s : String) : String :=
  ⟨(dropWhileSpace (dropWhileSpace s.data).reverse).reverse⟩

/-- strings.ToLower on the ASCII range. -/
def lowerString (s : String) : String := ⟨s.data.map Char.toLower⟩

/-- strings.HasSuffix. -/
def endsWithStr (s suffixStr : String) : Bool :=
  startsWithChars s.data.reverse suffixStr.data.reverse

/-- strings.Join with a separator. -/
def joinSep (sep : String) : List String → String
  | [] => ""
  | [x] => x
  | x :: y :: xs => x ++ sep ++ joinSep sep (y :: xs)

/-- The validate tag "required,min=2,max=50" carried by FirstName and
LastName in models.Employee (src/Dockerfile related doc), checked in tag
order with the external validator's stop-at-first-failing-tag-per-field
behaviour; the messages are the ones produced by `getValidationMessage` in
the employee service. -/
def checkRequiredMinMax (name : String) (lo hi : Nat) (v : String) : Option ValidationError :=
  if v = "" then some ⟨name, name ++ " is required"⟩
  else if v.length < lo then some ⟨name, name ++ " must be at least " ++ toString lo ++ " characters"⟩
  else if v.length > hi then some ⟨name, name ++ " must not exceed " ++ toString hi ++ " characters"⟩
  else none

/-- The validate tag "max=N" carried by the optional text fields of
models.Employee (company 100, address 255, city and county 50, postal and
phone 20). -/
def checkMax (name : String) (hi : Nat) (v : String) : Option ValidationError :=
  if v.length > hi then some ⟨name, name ++ " must not exceed " ++ toString hi ++ " characters"⟩
  else none

/-- The validate tag "required,email,max=255" carried by Email in
models.Employee, in tag order; the library's email-syntax test is the
abstract parameter `emailOk`. -/
def checkEmail (emailOk : String → Bool) (v : String) : Option ValidationError :=
  if v = "" then some ⟨"Email", "Email is required"⟩
  else if !(emailOk v) then some ⟨"Email", "Invalid email format"⟩
  else if v.length > 255 then some ⟨"Email", "Email must not exceed 255 characters"⟩
  else none

/-- The validate tag "omitempty,url" carried by Web in models.Employee: the
URL-syntax test (`urlOk`) is skipped for an empty value. -/
def checkWeb (urlOk : String → Bool) (v : String) : Option ValidationError :=
  if v = "" then none
  else if !(urlOk v) then some ⟨"Web", "Invalid URL format"⟩
  else none

/-- ValidateEmployeeData (employee service, src): runs the validate tags of
models.Employee in struct-field order and collects one error per violating
field.  The external validator reports at most one failed tag per field (its
per-field short-circuit), which the repository test suite also assumes. -/
def validateEmployeeData (emailOk urlOk : String → Bool) (e : Employee) : List ValidationError :=
  ([ checkRequiredMinMax "FirstName" 2 50 e.firstName,
     checkRequiredMinMax "LastName" 2 50 e.lastName,
     checkMax "CompanyName" 100 e.companyName,
     checkMax "Address" 255 e.address,
     checkMax "City" 50 e.city,
     checkMax "County" 50 e.county,
     checkMax "Postal" 20 e.postal,
     checkMax "Phone" 20 e.phone,
     checkEmail emailOk e.email,
     checkWeb urlOk e.web ]).filterMap id

/-- Header normalization: strings.TrimSpace then strings.ToLower. -/
def cleanHeader (h : String) : String := lowerString (trimString h)

/-- A header mapping: normalized column name to zero-based column index. -/
abbrev HeaderMap := String → Option Nat

/-- Builds the Go map `headerMap[cleanHeader] = i` left to right from column
index `i`; a later duplicate name overwrites an earlier index (Go map
assignment), so the lookup prefers the entry built from the rest of the row. -/
def buildHeaderMapFrom : Nat → List String → HeaderMap
  | _, [], _ => none
  | i, h :: rest, k =>
      match buildHeaderMapFrom (i + 1) rest k with
      | some j => some j
      | none => if k = cleanHeader h then some i else none

/-- The header mapping built from the first sheet row. -/
def buildHeaderMap (headerRow : List String) : HeaderMap := buildHeaderMapFrom 0 headerRow

/-- The expected column set, exactly as listed in the Excel service. -/
def expectedHeaders : List String :=
  ["first_name", "last_name", "company_name", "address",
   "city", "county", "postal", "phone", "email", "web"]

/-- The three mandatory columns singled out inside validateAndMapHeaders. -/
def isRequiredHeader (h : String) : Bool :=
  h == "first_name" || h == "last_name" || h == "email"

/-- Structured content of the header-validation failure: the missing required
names (all of them) and the observed header row, as interpolated into
the Go error string. -/
structure HeaderError where
  missing : List String
  observed : List String
deriving Repr, DecidableEq

/-- validateAndMapHeaders (Excel service, src): builds the mapping, then
collects every required expected header that the mapping lacks; fails with the
full missing list and the observed headers when that list is non-empty. -/
def validateAndMapHeaders (headerRow : List String) : Except HeaderError HeaderMap :=
  let headerMap := buildHeaderMap headerRow
  let missingHeaders := expectedHeaders.filter (fun h => isRequiredHeader h && (headerMap h).isNone)
  if missingHeaders.length > 0 then
    Except.error ⟨missingHeaders, headerRow⟩
  else
    Except.ok headerMap

/-- Does header mapping succeed on this row? -/
def headerMappingOk (headerRow : List String) : Bool :=
  match validateAndMapHeaders headerRow with
  | Except.ok _ => true
  | Except.error _ => false

/-- isRowEmpty: every cell blank after trimming. -/
def isRowEmpty (row : List String) : Bool := row.all (fun cell => trimString cell == "")

/-- getCellValue: reads the cell at the mapped index, trimmed; a missing
column or an index beyond the row yields the empty string. -/
def getCellValue (row : List String) (hm : HeaderMap) (columnName : String) : String :=
  match hm columnName with
  | some i => trimString (row.getD i "")
  | none => ""

/-- The candidate record built from one raw row through the header mapping
(parseEmployeeFromRow, construction part). -/
def employeeFromRow (row : List String) (hm : HeaderMap) : Employee where
  id := 0
  firstName := getCellValue row hm "first_name"
  lastName := getCellValue row hm "last_name"
  companyName := getCellValue row hm "company_name"
  address := getCellValue row hm "address"
  city := getCellValue row hm "city"
  county := getCellValue row hm "county"
  postal := getCellValue row hm "postal"
  phone := getCellValue row hm "phone"
  email := getCellValue row hm "email"
  web := getCellValue row hm "web"

/-- Prefixes a field error with its 1-based sheet row number, exactly as the
mapper formats it: "Row N - FieldName". -/
def rowQualify (n : Nat) (ve : ValidationError) : ValidationError :=
  ⟨"Row " ++ toString n ++ " - " ++ ve.field, ve.message⟩

/-- parseEmployeeFromRow (Excel service, src): builds the candidate, validates
it, row-qualifies each error; a row with any error yields no record. -/
def parseEmployeeFromRow (emailOk urlOk : String → Bool) (row : List String) (hm : HeaderMap)
    (rowNumber : Nat) : Option Employee × List ValidationError :=
  let employee := employeeFromRow row hm
  let errs := (validateEmployeeData emailOk urlOk employee).map (rowQualify rowNumber)
  if errs.length > 0 then (none, errs) else (some employee, [])

/-- The data-row loop of parseExcelContent: `n` is the 1-based sheet row
number of the first row of the list (the first data row has n = 2, the header
being row 1); empty rows are skipped, errors accumulate in order. -/
def parseDataRows (emailOk urlOk : String → Bool) (hm : HeaderMap) :
    List (List String) → Nat → List Employee × List ValidationError
  | [], _ => ([], [])
  | row :: rest, n =>
    if isRowEmpty row then
      parseDataRows emailOk urlOk hm rest (n + 1)
    else
      let pr := parseEmployeeFromRow emailOk urlOk row hm n
      let t := parseDataRows emailOk urlOk hm rest (n + 1)
      match pr.1 with
      | some e => (e :: t.1, t.2)
      | none => (t.1, pr.2 ++ t.2)

/-- Fatal parse failures of parseExcelContent (the workbook-open failure lives
in the external library, before these checks). -/
inductive ParseError
  | emptyFile
  | missingHeaders (e : HeaderError)
deriving Repr, DecidableEq

/-- parseExcelContent (Excel service, src): rejects a sheet with at most one
row, validates the header row, then maps every data row. -/
def parseExcelContent (emailOk urlOk : String → Bool) (rows : List (List String)) :
    Except ParseError (List Employee × List ValidationError) :=
  if rows.length ≤ 1 then Except.error ParseError.emptyFile
  else
    match validateAndMapHeaders (rows.headD []) with
    | Except.error e => Except.error (ParseError.missingHeaders e)
    | Except.ok hm => Except.ok (parseDataRows emailOk urlOk hm (rows.drop 1) 2)

/-! ### Batch persistence (internal/database/database.go) -/

/-- The outcome the storage engine returns for one tx.Create call: success, or
an error rendered as text (gorm surfaces driver errors as error strings). -/
inductive CreateOutcome
  | ok
  | err (msg : String)
deriving Repr, DecidableEq

/-- isDuplicateKeyError: the three substring tests of the repository. -/
def isDuplicateKeyError (errStr : String) : Bool :=
  containsSub errStr "Duplicate entry" ||
  containsSub errStr "UNIQUE constraint failed" ||
  containsSub errStr "duplicate key"

/-- The four return values of CreateEmployeesInBatchWithResult: counts, the
accumulated duplicate-email list and the transaction error, if any. -/
structure BatchResult where
  inserted : Nat
  skipped : Nat
  duplicateEmails : List String
  err : Option String
deriving Repr, DecidableEq

/-- The record loop inside the transaction of CreateEmployeesInBatchWithResult:
each record is attempted in order against the storage outcome sequence; a
duplicate-key failure is skipped and its email recorded, any other failure
ends the loop and is returned together with the counts accumulated so far. -/
def batchRun : List Employee → List CreateOutcome → Nat → Nat → List String → BatchResult
  | [], _, ins, sk, dups => ⟨ins, sk, dups, none⟩
  | _ :: _, [], ins, sk, dups => ⟨ins, sk, dups, none⟩
  | e :: rest, o :: os, ins, sk, dups =>
    match o with
    | CreateOutcome.ok => batchRun rest os (ins + 1) sk dups
    | CreateOutcome.err m =>
      if isDuplicateKeyError m then batchRun rest os ins (sk + 1) (dups ++ [e.email])
      else ⟨ins, sk, dups, some m⟩

/-- CreateEmployeesInBatchWithResult, with the storage engine represented by
the outcome sequence `outs` (one entry per attempted record). -/
def createEmployeesInBatchWithResult (emps : List Employee) (outs : List CreateOutcome) :
    BatchResult :=
  batchRun emps outs 0 0 []

/-- The error text MySQL produces on a violation of the unique key on the
email column: it always carries the "Duplicate entry" marker that
isDuplicateKeyError looks for. -/
def dupEntryMsg (email : String) : String :=
  "Duplicate entry " ++ email ++ " for key email"

/-- Membership of an email in the stored email set (the unique-key lookup the
database performs). -/
def memStr (x : String) : List String → Bool
  | [] => false
  | y :: ys => x == y || memStr x ys

/-- The outcome sequence produced by a MySQL store whose email column holds
the unique key: an insert fails iff the email is already present, and a
successful insert adds the email for the rest of the batch (the per-batch
transaction state). `db` is the set of emails already in storage. -/
def mysqlOuts : List String → List Employee → List CreateOutcome
  | _, [] => []
  | db, e :: rest =>
    if memStr e.email db then CreateOutcome.err (dupEntryMsg e.email) :: mysqlOuts db rest
    else CreateOutcome.ok :: mysqlOuts (e.email :: db) rest

/-! ### Upload orchestration (Excel service, src/unnamed/part_003) -/

/-- models.ExcelUploadResponse. -/
structure ExcelUploadResponse where
  message : String
  totalRecords : Nat
  validRecords : Nat
  invalidRecords : Nat
  insertedRecords : Nat
  skippedRecords : Nat
  duplicateEmails : List String
deriving Repr, DecidableEq

/-- The cap on duplicate emails shown in the summary. -/
def maxDuplicatesToShow : Nat := 10

/-- The parenthesised duplicate-email sample appended to the summary message
when rows were skipped: the first ten joined, plus the overflow count. -/
def duplicateEmailsText (duplicateEmails : List String) : String :=
  if duplicateEmails.length = 0 then ""
  else if duplicateEmails.length > maxDuplicatesToShow then
    " (examples: " ++ joinSep ", " (duplicateEmails.take maxDuplicatesToShow) ++
      (" and " ++ toString (duplicateEmails.length - maxDuplicatesToShow) ++ " more)")
  else
    " (" ++ joinSep ", " duplicateEmails ++ ")"

/-- ProcessExcelFile after the file has been read: parse, then persist the
valid records and assemble the summary.  On a batch error the function logs,
writes the failure into the message and still returns the response as a
success; otherwise the valid count is overwritten with the inserted count and
the duplicate sample is capped. -/
def processExcelFile (emailOk urlOk : String → Bool) (rows : List (List String))
    (outs : List CreateOutcome) : Except ParseError ExcelUploadResponse :=
  match parseExcelContent emailOk urlOk rows with
  | Except.error e => Except.error e
  | Except.ok (emps, verrs) =>
    let total := emps.length + verrs.length
    if emps.length > 0 then
      let r := createEmployeesInBatchWithResult emps outs
      match r.err with
      | some m =>
        Except.ok
          { message := "Processed " ++ toString total ++
              " records, but failed to save to database: " ++ m
            totalRecords := total, validRecords := emps.length, invalidRecords := verrs.length
            insertedRecords := 0, skippedRecords := 0, duplicateEmails := [] }
      | none =>
        let shown :=
          if r.duplicateEmails.length > maxDuplicatesToShow then
            r.duplicateEmails.take maxDuplicatesToShow
          else r.duplicateEmails
        let msg :=
          if r.skipped > 0 then
            "Successfully processed " ++ toString total ++ " records. Inserted: " ++
              toString r.inserted ++ " new employees, Skipped: " ++ toString r.skipped ++
              " duplicates" ++ duplicateEmailsText r.duplicateEmails ++
              ", Invalid: " ++ toString verrs.length
          else
            "Successfully processed " ++ toString total ++ " records. Inserted: " ++
              toString r.inserted ++ " new employees, Invalid: " ++ toString verrs.length
        Except.ok
          { message := msg, totalRecords := total, validRecords := r.inserted
            invalidRecords := verrs.length, insertedRecords := r.inserted
            skippedRecords := r.skipped, duplicateEmails := shown }
    else
      Except.ok
        { message := "No valid employee records found in the Excel file"
          totalRecords := total, validRecords := emps.length, invalidRecords := verrs.length
          insertedRecords := 0, skippedRecords := 0, duplicateEmails := [] }

/-! ### Structure-only validation (Excel service, src/unnamed/part_003) -/

/-- models.ExcelValidationResponse: the only two fields the structure-only
endpoint returns. -/
structure ExcelValidationResponse where
  message : String
  totalRecords : Nat
deriving Repr, DecidableEq

/-- Count of data rows that are not blank. -/
def nonEmptyRowCount (dataRows : List (List String)) : Nat :=
  (dataRows.filter (fun r => !isRowEmpty r)).length

/-- ValidateExcelStructure: checks the headers and counts non-empty data rows.
The parameter `db` is the email set in storage, reachable through the employee
service the Excel service holds; the function body never touches it (it
performs no storage operation of any kind). -/
def validateExcelStructure (db : List String) (rows : List (List String)) :
    Except ParseError ExcelValidationResponse :=
  let _ := db
  if rows.length ≤ 1 then
    Except.ok ⟨"Excel file appears to be empty", 0⟩
  else
    match validateAndMapHeaders (rows.headD []) with
    | Except.error e => Except.error (ParseError.missingHeaders e)
    | Except.ok _ =>
      let c := nonEmptyRowCount (rows.drop 1)
      Except.ok ⟨"Excel validation successful. File structure is valid with " ++ toString c ++
        " data rows and correct headers", c⟩

/-! ### Partial update (employee service, src/unnamed/part_002) -/

/-- GetEmployeeByID against an in-memory storage state (first record whose
identifier matches, as the primary-key lookup returns). -/
def getEmployeeByID (db : List Employee) (id : Nat) : Option Employee :=
  db.find? (fun e => e.id == id)

/-- GetEmployeeByEmail: first record whose email matches. -/
def getEmployeeByEmail (db : List Employee) (email : String) : Option Employee :=
  db.find? (fun e => e.email == email)

/-- The field-by-field overwrite block of UpdateEmployee: every non-empty
incoming field replaces the stored one, every empty one is left alone; the
identifier is never touched. -/
def mergeNonEmpty (old upd : Employee) : Employee where
  id := old.id
  firstName := if upd.firstName ≠ "" then upd.firstName else old.firstName
  lastName := if upd.lastName ≠ "" then upd.lastName else old.lastName
  email := if upd.email ≠ "" then upd.email else old.email
  companyName := if upd.companyName ≠ "" then upd.companyName else old.companyName
  address := if upd.address ≠ "" then upd.address else old.address
  city := if upd.city ≠ "" then upd.city else old.city
  county := if upd.county ≠ "" then upd.county else old.county
  postal := if upd.postal ≠ "" then upd.postal else old.postal
  phone := if upd.phone ≠ "" then upd.phone else old.phone
  web := if upd.web ≠ "" then upd.web else old.web

/-- UpdateEmployee (employee service): load, reject an email change that
collides with an existing record, merge, validate, save.  The pair returned is
(call result, storage state after the call); every failure leaves storage
untouched. -/
def updateEmployee (emailOk urlOk : String → Bool) (db : List Employee) (id : Nat)
    (updateData : Employee) : Except String Employee × List Employee :=
  match getEmployeeByID db id with
  | none => (Except.error ("employee with ID " ++ toString id ++ " not found"), db)
  | some existingEmployee =>
    if updateData.email ≠ "" ∧ updateData.email ≠ existingEmployee.email ∧
        (getEmployeeByEmail db updateData.email).isSome then
      (Except.error ("employee with email " ++ updateData.email ++ " already exists"), db)
    else
      let merged := mergeNonEmpty existingEmployee updateData
      if (validateEmployeeData emailOk urlOk merged).length > 0 then
        (Except.error "validation failed", db)
      else
        (Except.ok merged, db.map (fun e => if e.id == id then merged else e))

/-! ### Async job tracker (Excel service, src/unnamed/part_003) -/

/-- JobStatus. -/
inductive JobStatus
  | pending
  | running
  | completed
  | failed
deriving Repr, DecidableEq

/-- A terminal status: completed or failed. -/
def JobStatus.isTerminal : JobStatus → Bool
  | JobStatus.completed => true
  | JobStatus.failed => true
  | _ => false

/-- Position of a status along the forward order pending, running, terminal. -/
def JobStatus.rank : JobStatus → Nat
  | JobStatus.pending => 0
  | JobStatus.running => 1
  | JobStatus.completed => 2
  | JobStatus.failed => 2

/-- JobResult: the tracked record of one async ingestion. -/
structure JobResult where
  id : String
  status : JobStatus
  result : Option ExcelUploadResponse
  error : String
deriving Repr, DecidableEq

/-- The in-memory job map guarded by the service mutex. -/
abbrev JobMap := String → Option JobResult

/-- The two inputs of the upload eligibility check. -/
structure FileHeader where
  filename : String
  size : Int
deriving Repr, DecidableEq

/-- validateExcelFile: size cap from configuration, then the extension test. -/
def validateExcelFile (maxFileSize : Int) (file : FileHeader) : Option String :=
  if file.size > maxFileSize then
    some ("file size " ++ toString file.size ++ " bytes exceeds maximum allowed size " ++
      toString maxFileSize ++ " bytes")
  else if !(endsWithStr (lowerString file.filename) ".xlsx") && !(endsWithStr (lowerString file.filename) ".xls") then
    some "invalid file format. Only .xlsx and .xls files are supported"
  else
    none

/-- StartAsyncExcelProcessing: synchronous eligibility check; when it passes,
a pending job record is registered under the fresh identifier and the
identifier is returned at once (the pipeline then runs as its own task). -/
def startAsyncExcelProcessing (maxFileSize : Int) (file : FileHeader) (jobs : JobMap)
    (jobID : String) : Except String (JobMap × String) :=
  match validateExcelFile maxFileSize file with
  | some e => Except.error ("file validation failed: " ++ e)
  | none =>
    let job : JobResult := ⟨jobID, JobStatus.pending, none, ""⟩
    Except.ok (fun k => if k = jobID then some job else jobs k, jobID)

/-- GetJobStatus: lookup, with the not-found failure for unknown identifiers. -/
def getJobStatus (jobs : JobMap) (jobID : String) : Except String JobResult :=
  match jobs jobID with
  | none => Except.error "job not found"
  | some job => Except.ok job

/-- The Go error text of a fatal parse outcome, as wrapped by ProcessExcelFile
and recorded in a failed job. -/
def parseErrorText : ParseError → String
  | ParseError.emptyFile =>
    "failed to parse Excel file: Excel file appears to be empty or has no data rows"
  | ParseError.missingHeaders e =>
    "failed to parse Excel file: header validation failed: required headers not found: [" ++
      joinSep " " e.missing ++ "]. Available headers: [" ++
      joinSep " " e.observed ++ "]"

/-- The updateJobStatus calls processExcelAsync makes for one job, in program
order: running when the task starts, then exactly one terminal update carrying
either the summary or the error text. -/
def processExcelAsyncUpdates (outcome : Except ParseError ExcelUploadResponse) :
    List (JobStatus × Option ExcelUploadResponse × String) :=
  (JobStatus.running, none, "") ::
    (match outcome with
     | Except.error e => [(JobStatus.failed, none, parseErrorText e)]
     | Except.ok r => [(JobStatus.completed, some r, "")])

/-- The status values a job record holds over its life, in order: pending at
registration, then the background updates. -/
def jobStatusHistory (outcome : Except ParseError ExcelUploadResponse) : List JobStatus :=
  JobStatus.pending :: (processExcelAsyncUpdates outcome).map (fun u => u.1)

/-! ### List-employees pagination (handlers, src/unnamed/part_001) -/

/-- Two's-complement wrap into the signed 64-bit range: the arithmetic of
the Go int in the handler (the build targets a 64-bit platform). -/
def wrap64 (n : Int) : Int := (n + 2 ^ 63) % 2 ^ 64 - 2 ^ 63

/-- A query parameter as the handler sees it: missing (DefaultQuery supplies
the default, which parses), syntactically invalid (strconv.Atoi returns 0
with an error the handler discards), out of the 64-bit range (Atoi returns
the clamped MaxInt64 or MinInt64 with ErrRange, likewise discarded), or an
in-range parsed integer. -/
inductive QueryParam
  | absent
  | unparseable
  | overRange
  | underRange
  | value (n : Int)
deriving Repr, DecidableEq

/-- The integer strconv.Atoi(c.DefaultQuery(name, default)) produces. -/
def atoiDefault (dflt : Int) : QueryParam → Int
  | QueryParam.absent => dflt
  | QueryParam.unparseable => 0
  | QueryParam.overRange => 2 ^ 63 - 1
  | QueryParam.underRange => -(2 ^ 63)
  | QueryParam.value n => n

/-- The pagination block of GetEmployees: parse with defaults, clamp page
below 1 to 1 and limit outside 1..100 to 20, then derive the offset the
storage query receives; the multiplication is the handler's 64-bit int
multiplication, which wraps. -/
def getEmployeesParams (pageParam limitParam : QueryParam) : Int × Int × Int :=
  let page0 := atoiDefault 1 pageParam
  let limit0 := atoiDefault 20 limitParam
  let page := if page0 < 1 then 1 else page0
  let limit := if limit0 < 1 ∨ limit0 > 100 then 20 else limit0
  (page, limit, wrap64 ((page - 1) * limit))

/-! ### Helper lemmas -/

theorem startsWithChars_self_append (p l : List Char) : startsWithChars (p ++ l) p = true := by
  induction p with
  | nil => cases l <;> rfl
  | cons c ps ih => simp [startsWithChars, ih]

theorem hasSubChars_nil_pat (l : List Char) : hasSubChars l [] = true := by
  cases l <;> rfl

theorem hasSubChars_append_mid (l1 p l2 : List Char) :
    hasSubChars (l1 ++ (p ++ l2)) p = true := by
  induction l1 with
  | nil =>
    cases p with
    | nil => simpa using hasSubChars_nil_pat l2
    | cons q qs =>
      have h := startsWithChars_self_append (q :: qs) l2
      simp only [List.cons_append] at h
      simp [hasSubChars, h]
  | cons c cs ih => simp [hasSubChars, ih]

theorem containsSub_of_decomp (s a pat b : String) (h : s = a ++ (pat ++ b)) :
    containsSub s pat = true := by
  subst h
  simp [containsSub, String.data_append, hasSubChars_append_mid]

theorem isDuplicateKeyError_dupEntryMsg (email : String) :
    isDuplicateKeyError (dupEntryMsg email) = true := by
  have h : containsSub (dupEntryMsg email) "Duplicate entry" = true := by
    apply containsSub_of_decomp (a := "") (b := " " ++ email ++ " for key email")
    apply String.ext
    simp [dupEntryMsg, String.data_append]
  simp [isDuplicateKeyError, h]

theorem buildHeaderMapFrom_isSome (l : List String) (i : Nat) (k : String) :
    (buildHeaderMapFrom i l k).isSome = true ↔ ∃ h ∈ l, cleanHeader h = k := by
  induction l generalizing i with
  | nil => simp [buildHeaderMapFrom]
  | cons h rest ih =>
    constructor
    · intro hs
      rw [buildHeaderMapFrom] at hs
      rcases hrec : buildHeaderMapFrom (i + 1) rest k with _ | j
      · rw [hrec] at hs
        simp only at hs
        by_cases hk : k = cleanHeader h
        · exact ⟨h, by simp, hk.symm⟩
        · simp [hk] at hs
      · have := (ih (i + 1)).mp (by rw [hrec]; rfl)
        rcases this with ⟨h2, hmem, hcl⟩
        exact ⟨h2, by simp [hmem], hcl⟩
    · rintro ⟨h2, hmem, hcl⟩
      rw [buildHeaderMapFrom]
      rcases hrec : buildHeaderMapFrom (i + 1) rest k with _ | j
      · simp only [hrec]
        rcases List.mem_cons.mp hmem with heq | hm2
        · subst heq
          simp [hcl.symm]
        · exfalso
          have hsome : (buildHeaderMapFrom (i + 1) rest k).isSome = true :=
            (ih (i + 1)).mpr ⟨h2, hm2, hcl⟩
          rw [hrec] at hsome
          simp at hsome
      · simp [hrec]

theorem requiredHeader_mem_expected (r : String) (hr : isRequiredHeader r = true) :
    r ∈ expectedHeaders := by
  simp only [isRequiredHeader, Bool.or_eq_true, beq_iff_eq] at hr
  rcases hr with (h | h) | h <;> subst h <;> simp [expectedHeaders]

theorem buildHeaderMap_isNone (headerRow : List String) (r : String) :
    (buildHeaderMap headerRow r).isNone = true ↔ ¬ ∃ h ∈ headerRow, cleanHeader h = r := by
  rw [← buildHeaderMapFrom_isSome headerRow 0 r]
  show (buildHeaderMapFrom 0 headerRow r).isNone = true ↔ _
  cases buildHeaderMapFrom 0 headerRow r <;> simp

theorem missingHeaders_mem (headerRow : List String) (r : String) :
    r ∈ expectedHeaders.filter
        (fun h => isRequiredHeader h && (buildHeaderMap headerRow h).isNone) ↔
      r ∈ expectedHeaders ∧ isRequiredHeader r = true ∧
        (buildHeaderMap headerRow r).isNone = true := by
  simp [List.mem_filter, Bool.and_eq_true, and_assoc]

/-- C3: header mapping (after trimming and lower-casing) succeeds exactly when
the three required columns are all present, in any order and with any optional
columns; on failure the error carries the full observed header row and lists
precisely the missing required columns — every one of them, not just the
first. -/
theorem claim3_header_mapping (headerRow : List String) :
    (headerMappingOk headerRow = true ↔
      ∀ r, isRequiredHeader r = true → ∃ h ∈ headerRow, cleanHeader h = r)
    ∧ (∀ e, validateAndMapHeaders headerRow = Except.error e →
        e.observed = headerRow ∧
        (∀ r, r ∈ e.missing →
          isRequiredHeader r = true ∧ ¬ ∃ h ∈ headerRow, cleanHeader h = r) ∧
        (∀ r, isRequiredHeader r = true → (¬ ∃ h ∈ headerRow, cleanHeader h = r) →
          r ∈ e.missing)) := by
  by_cases hlen :
      (expectedHeaders.filter
        (fun h => isRequiredHeader h && (buildHeaderMap headerRow h).isNone)).length > 0
  · have hval : validateAndMapHeaders headerRow =
        Except.error
          ⟨expectedHeaders.filter
            (fun h => isRequiredHeader h && (buildHeaderMap headerRow h).isNone), headerRow⟩ := by
      simp [validateAndMapHeaders, hlen]
    constructor
    · rw [headerMappingOk, hval]
      simp only [Bool.false_eq_true, false_iff]
      intro hall
      rcases List.exists_mem_of_length_pos hlen with ⟨r, hrm⟩
      rcases (missingHeaders_mem headerRow r).mp hrm with ⟨_, hreq, hnone⟩
      exact (buildHeaderMap_isNone headerRow r).mp hnone (hall r hreq)
    · intro e he
      rw [hval] at he
      injection he with he
      subst he
      refine ⟨rfl, ?_, ?_⟩
      · intro r hrm
        rcases (missingHeaders_mem headerRow r).mp hrm with ⟨_, hreq, hnone⟩
        exact ⟨hreq, (buildHeaderMap_isNone headerRow r).mp hnone⟩
      · intro r hreq hnf
        exact (missingHeaders_mem headerRow r).mpr
          ⟨requiredHeader_mem_expected r hreq, hreq, (buildHeaderMap_isNone headerRow r).mpr hnf⟩
  · have hval : validateAndMapHeaders headerRow = Except.ok (buildHeaderMap headerRow) := by
      simp [validateAndMapHeaders, hlen]
    constructor
    · rw [headerMappingOk, hval]
      simp only [true_iff]
      intro r hreq
      by_contra hnf
      have : r ∈ expectedHeaders.filter
          (fun h => isRequiredHeader h && (buildHeaderMap headerRow h).isNone) :=
        (missingHeaders_mem headerRow r).mpr
          ⟨requiredHeader_mem_expected r hreq, hreq, (buildHeaderMap_isNone headerRow r).mpr hnf⟩
      exact hlen (List.length_pos_of_mem this)
    · intro e he
      rw [hval] at he
      exact absurd he (by simp)

/-- C3 witness: a scrambled, mixed-case header row with extra columns maps
successfully, and the header row ["city"] is reported as missing first_name
(among all three required columns). -/
theorem claim3_witness :
    headerMappingOk [" Email", "LAST_NAME", "extra", "first_name"] = true ∧
    "first_name" ∈ (HeaderError.mk ["first_name", "last_name", "email"] ["city"]).missing := by
  constructor
  · refine (claim3_header_mapping [" Email", "LAST_NAME", "extra", "first_name"]).1.mpr ?_
    intro r hr
    simp only [isRequiredHeader, Bool.or_eq_true, beq_iff_eq] at hr
    rcases hr with (h | h) | h <;> subst h
    · exact ⟨"first_name", by simp, by decide⟩
    · exact ⟨"LAST_NAME", by simp, by decide⟩
    · exact ⟨" Email", by simp, by decide⟩
  · have h := (claim3_header_mapping ["city"]).2
      (HeaderError.mk ["first_name", "last_name", "email"] ["city"]) (by rfl)
    exact h.2.2 "first_name" (by decide) (by decide)

/-- A concrete stand-in for the external email-syntax check, used to evaluate
the pipeline on explicit inputs: the text contains an at sign. -/
def emailOkTest (s : String) : Bool := containsSub s "@"

/-- A concrete stand-in for the external URL-syntax check. -/
def urlOkTest (s : String) : Bool := containsSub s "://"

/-- C2: a non-empty data row whose candidate record fails validation makes the
mapper emit exactly the validator's error list — one Row Validation Error per
violating field (k errors for k violated field constraints), each field
locator prefixed with "Row N - " for the 1-based sheet row number N — and
contributes no record to the valid-records sequence: the loop result on such a
row is the rest-result with only the qualified errors prepended. -/
theorem claim2_row_mapper (emailOk urlOk : String → Bool) (hm : HeaderMap)
    (row : List String) (rest : List (List String)) (n : Nat)
    (hne : isRowEmpty row = false)
    (hk : validateEmployeeData emailOk urlOk (employeeFromRow row hm) ≠ []) :
    parseDataRows emailOk urlOk hm (row :: rest) n =
      ((parseDataRows emailOk urlOk hm rest (n + 1)).1,
        (validateEmployeeData emailOk urlOk (employeeFromRow row hm)).map (rowQualify n)
          ++ (parseDataRows emailOk urlOk hm rest (n + 1)).2) := by
  have hlen :
      0 < ((validateEmployeeData emailOk urlOk (employeeFromRow row hm)).map (rowQualify n)).length := by
    rw [List.length_map]
    exact List.length_pos.mpr hk
  rw [parseDataRows, hne]
  simp only [Bool.false_eq_true, if_false, parseEmployeeFromRow, hlen, if_pos]

/-- C2 witness: the row ("Jo", "", "") at sheet row 2 violates the two
constraints LastName-required and Email-required and yields exactly those two
qualified errors and no record. -/
theorem claim2_witness :
    parseDataRows emailOkTest urlOkTest (buildHeaderMap ["first_name", "last_name", "email"])
        [["Jo", "", ""]] 2 =
      ([], [⟨"Row 2 - LastName", "LastName is required"⟩,
            ⟨"Row 2 - Email", "Email is required"⟩]) := by
  have h := claim2_row_mapper emailOkTest urlOkTest
    (buildHeaderMap ["first_name", "last_name", "email"]) ["Jo", "", ""] [] 2
    (by decide) (by decide)
  rw [h]
  rfl

theorem wrap64_eq_self (n : Int) (h0 : 0 ≤ n) (h1 : n < 2 ^ 63) : wrap64 n = n := by
  have e1 : (2 : Int) ^ 63 = 9223372036854775808 := by norm_num
  have e2 : (2 : Int) ^ 64 = 18446744073709551616 := by norm_num
  rw [wrap64, e1, e2]
  rw [e1] at h1
  omega

/-- C10 (amended): the handler clamps page below 1 to 1 (a syntactically
unparseable parameter parses to 0 and is so clamped; an out-of-range
parameter keeps the MaxInt64 or MinInt64 value Atoi clamps it to, the
negative extreme then clamped to 1) and a limit outside 1..100 to 20 before
storage is queried; the offset handed to storage is the 64-bit wrapped
product (page - 1) * limit, which equals the exact product and is
nonnegative whenever that product is below 2^63 — but for page values around
2^62 and beyond the 64-bit multiplication wraps and the storage offset can
be negative. -/
theorem claim10_pagination (pageParam limitParam : QueryParam) (page limit offset : Int)
    (h : getEmployeesParams pageParam limitParam = (page, limit, offset)) :
    1 ≤ page ∧ 1 ≤ limit ∧ limit ≤ 100 ∧
    offset = wrap64 ((page - 1) * limit) ∧
    ((page - 1) * limit < 2 ^ 63 → offset = (page - 1) * limit ∧ 0 ≤ offset) ∧
    (atoiDefault 1 pageParam < 1 → page = 1) ∧
    (pageParam = QueryParam.unparseable → page = 1) ∧
    (pageParam = QueryParam.underRange → page = 1) ∧
    (pageParam = QueryParam.overRange → page = 2 ^ 63 - 1) ∧
    ((atoiDefault 20 limitParam < 1 ∨ 100 < atoiDefault 20 limitParam) → limit = 20) ∧
    (limitParam = QueryParam.unparseable → limit = 20) := by
  simp only [getEmployeesParams, Prod.mk.injEq] at h
  obtain ⟨hp, hl, ho⟩ := h
  have hpage : 1 ≤ page := by rw [← hp]; split_ifs <;> omega
  have hlimit1 : 1 ≤ limit := by rw [← hl]; split_ifs <;> omega
  have hlimit2 : limit ≤ 100 := by rw [← hl]; split_ifs <;> omega
  have hoff : offset = wrap64 ((page - 1) * limit) := by rw [← ho, hp, hl]
  refine ⟨hpage, hlimit1, hlimit2, hoff, ?_, ?_, ?_, ?_, ?_, ?_, ?_⟩
  · intro hlt
    have hm0 : 0 ≤ (page - 1) * limit := mul_nonneg (by omega) (by omega)
    have hid : wrap64 ((page - 1) * limit) = (page - 1) * limit :=
      wrap64_eq_self _ hm0 hlt
    exact ⟨by rw [hoff, hid], by rw [hoff, hid]; exact hm0⟩
  · intro hlt
    rw [← hp, if_pos hlt]
  · intro he
    subst he
    rw [← hp]
    norm_num [atoiDefault]
  · intro he
    subst he
    rw [← hp]
    norm_num [atoiDefault]
  · intro he
    subst he
    rw [← hp]
    norm_num [atoiDefault]
  · intro hor
    rw [← hl, if_pos (by omega : atoiDefault 20 limitParam < 1 ∨ atoiDefault 20 limitParam > 100)]
  · intro he
    subst he
    rw [← hl]
    norm_num [atoiDefault]

/-- C10 counterexample: page 4611686018427387905 (= 2^62 + 1) and limit 2
pass both clamps, yet the 64-bit product (page - 1) * limit wraps to
MinInt64, so the storage layer is queried with a negative offset — refuting
the claim's never-negative-offset conclusion. -/
theorem claim10_counterexample :
    getEmployeesParams (QueryParam.value 4611686018427387905) (QueryParam.value 2) =
      (4611686018427387905, 2, -9223372036854775808) ∧
    (-9223372036854775808 : Int) < 0 := by
  constructor
  · decide
  · decide

/-- C10 witness: an unparseable page parameter and limit parameter 1000
yield page 1, limit 20 and offset 0, the exact nonnegative product. -/
theorem claim10_witness :
    getEmployeesParams QueryParam.unparseable (QueryParam.value 1000) = (1, 20, 0) ∧
    (0 : Int) = (1 - 1) * 20 := by
  have heq : getEmployeesParams QueryParam.unparseable (QueryParam.value 1000) = (1, 20, 0) := by
    decide
  have h := claim10_pagination QueryParam.unparseable (QueryParam.value 1000) 1 20 0 heq
  have h5 := h.2.2.2.2.1 (by norm_num)
  exact ⟨heq, h5.1⟩

/-- C9: async submission of an eligible file registers the job in pending
state (not terminal, so the identifier is returned before any pipeline
update); a job's status values over its life are exactly pending, running,
then one terminal status, strictly forward along the rank order, with the
terminal status only at the end (so a terminal job never changes again) and
the completed update carrying the populated Upload Summary; polling an
unknown identifier fails with the not-found error. -/
theorem claim9_async_jobs (maxFileSize : Int) (file : FileHeader) (jobs : JobMap)
    (jobID : String) (outcome : Except ParseError ExcelUploadResponse) :
    (validateExcelFile maxFileSize file = none →
      ∃ jobs2, startAsyncExcelProcessing maxFileSize file jobs jobID =
          Except.ok (jobs2, jobID) ∧
        getJobStatus jobs2 jobID = Except.ok ⟨jobID, JobStatus.pending, none, ""⟩ ∧
        JobStatus.pending.isTerminal = false)
    ∧ (jobs jobID = none → getJobStatus jobs jobID = Except.error "job not found")
    ∧ (jobStatusHistory outcome = [JobStatus.pending, JobStatus.running, JobStatus.completed] ∨
       jobStatusHistory outcome = [JobStatus.pending, JobStatus.running, JobStatus.failed])
    ∧ List.Chain' (fun a b => a.rank < b.rank) (jobStatusHistory outcome)
    ∧ (∀ s ∈ (jobStatusHistory outcome).dropLast, s.isTerminal = false)
    ∧ ((jobStatusHistory outcome).getLast?.map JobStatus.isTerminal = some true)
    ∧ (∀ r, outcome = Except.ok r →
        processExcelAsyncUpdates outcome =
          [(JobStatus.running, none, ""), (JobStatus.completed, some r, "")])
    ∧ (∀ e, outcome = Except.error e →
        processExcelAsyncUpdates outcome =
          [(JobStatus.running, none, ""), (JobStatus.failed, none, parseErrorText e)]) := by
  refine ⟨?_, ?_, ?_, ?_, ?_, ?_, ?_, ?_⟩
  · intro hv
    refine ⟨fun k => if k = jobID then some ⟨jobID, JobStatus.pending, none, ""⟩ else jobs k,
      ?_, ?_, rfl⟩
    · simp [startAsyncExcelProcessing, hv]
    · simp [getJobStatus]
  · intro hn
    simp [getJobStatus, hn]
  · cases outcome <;> simp [jobStatusHistory, processExcelAsyncUpdates]
  · cases outcome <;>
      simp [jobStatusHistory, processExcelAsyncUpdates, List.chain'_cons,
        List.chain'_singleton, JobStatus.rank]
  · cases outcome <;>
      simp [jobStatusHistory, processExcelAsyncUpdates, JobStatus.isTerminal]
  · cases outcome <;>
      simp [jobStatusHistory, processExcelAsyncUpdates, JobStatus.isTerminal]
  · intro r hr
    subst hr
    rfl
  · intro e he
    subst he
    rfl

/-- C9 witness: polling the empty job map is a not-found failure, and a run
whose pipeline succeeds passes through exactly pending, running, completed. -/
theorem claim9_witness :
    getJobStatus (fun _ => none) "job-1" = Except.error "job not found" ∧
    jobStatusHistory (Except.ok ⟨"done", 1, 1, 0, 1, 0, []⟩) =
      [JobStatus.pending, JobStatus.running, JobStatus.completed] := by
  have h := claim9_async_jobs (10 * 1024 * 1024) ⟨"a.xlsx", 100⟩ (fun _ => none) "job-1"
    (Except.ok ⟨"done", 1, 1, 0, 1, 0, []⟩)
  have hu := h.2.2.2.2.2.2.1 ⟨"done", 1, 1, 0, 1, 0, []⟩ rfl
  refine ⟨h.2.1 rfl, ?_⟩
  rw [jobStatusHistory, hu]
  rfl

/-- C7: updating an existing record overwrites exactly the non-empty incoming
fields (each empty incoming field keeps the stored value, and the identifier
is preserved), replaces only the target record in storage; an update whose
non-empty incoming email differs from the current one and already belongs to
a record in storage fails with the already-exists error and leaves storage
unchanged. -/
theorem claim7_partial_update (emailOk urlOk : String → Bool) (db : List Employee)
    (id : Nat) (upd old : Employee)
    (hfind : getEmployeeByID db id = some old) :
    ((upd.email = "" ∨ upd.email = old.email ∨ getEmployeeByEmail db upd.email = none) →
      validateEmployeeData emailOk urlOk (mergeNonEmpty old upd) = [] →
      updateEmployee emailOk urlOk db id upd =
        (Except.ok (mergeNonEmpty old upd),
          db.map (fun e => if e.id == id then mergeNonEmpty old upd else e)))
    ∧ (upd.email ≠ "" → upd.email ≠ old.email → (getEmployeeByEmail db upd.email).isSome = true →
        updateEmployee emailOk urlOk db id upd =
          (Except.error ("employee with email " ++ upd.email ++ " already exists"), db))
    ∧ (mergeNonEmpty old upd).id = old.id
    ∧ ((mergeNonEmpty old upd).firstName =
        if upd.firstName ≠ "" then upd.firstName else old.firstName)
    ∧ ((mergeNonEmpty old upd).lastName = if upd.lastName ≠ "" then upd.lastName else old.lastName)
    ∧ ((mergeNonEmpty old upd).email = if upd.email ≠ "" then upd.email else old.email)
    ∧ ((mergeNonEmpty old upd).companyName =
        if upd.companyName ≠ "" then upd.companyName else old.companyName)
    ∧ ((mergeNonEmpty old upd).address = if upd.address ≠ "" then upd.address else old.address)
    ∧ ((mergeNonEmpty old upd).city = if upd.city ≠ "" then upd.city else old.city)
    ∧ ((mergeNonEmpty old upd).county = if upd.county ≠ "" then upd.county else old.county)
    ∧ ((mergeNonEmpty old upd).postal = if upd.postal ≠ "" then upd.postal else old.postal)
    ∧ ((mergeNonEmpty old upd).phone = if upd.phone ≠ "" then upd.phone else old.phone)
    ∧ ((mergeNonEmpty old upd).web = if upd.web ≠ "" then upd.web else old.web) := by
  refine ⟨?_, ?_, rfl, rfl, rfl, rfl, rfl, rfl, rfl, rfl, rfl, rfl, rfl⟩
  · intro hnc hval
    have hcond : ¬(upd.email ≠ "" ∧ upd.email ≠ old.email ∧
        (getEmployeeByEmail db upd.email).isSome = true) := by
      rintro ⟨h1, h2, h3⟩
      rcases hnc with h | h | h
      · exact h1 h
      · exact h2 h
      · rw [h] at h3
        simp at h3
    rw [updateEmployee, hfind]
    simp only [hcond, if_neg, not_false_iff]
    rw [hval]
    simp
  · intro h1 h2 h3
    have hcond : upd.email ≠ "" ∧ upd.email ≠ old.email ∧
        (getEmployeeByEmail db upd.email).isSome = true := ⟨h1, h2, h3⟩
    rw [updateEmployee, hfind]
    simp only [if_pos hcond]

/-- C7 witness: on a two-record store, an update of record 1 setting only the
last name keeps every other field and only replaces record 1; an update of
record 1 to the email of record 2 fails with the already-exists error and
leaves the store unchanged. -/
theorem claim7_witness :
    updateEmployee emailOkTest urlOkTest
        [⟨1, "Ann", "Lee", "", "", "", "", "", "", "ann@x.com", ""⟩,
         ⟨2, "Bob", "Lim", "", "", "", "", "", "", "bob@x.com", ""⟩] 1
        ⟨0, "", "Xu", "", "", "", "", "", "", "", ""⟩ =
      (Except.ok ⟨1, "Ann", "Xu", "", "", "", "", "", "", "ann@x.com", ""⟩,
        [⟨1, "Ann", "Xu", "", "", "", "", "", "", "ann@x.com", ""⟩,
         ⟨2, "Bob", "Lim", "", "", "", "", "", "", "bob@x.com", ""⟩]) ∧
    updateEmployee emailOkTest urlOkTest
        [⟨1, "Ann", "Lee", "", "", "", "", "", "", "ann@x.com", ""⟩,
         ⟨2, "Bob", "Lim", "", "", "", "", "", "", "bob@x.com", ""⟩] 1
        ⟨0, "", "", "", "", "", "", "", "", "bob@x.com", ""⟩ =
      (Except.error "employee with email bob@x.com already exists",
        [⟨1, "Ann", "Lee", "", "", "", "", "", "", "ann@x.com", ""⟩,
         ⟨2, "Bob", "Lim", "", "", "", "", "", "", "bob@x.com", ""⟩]) := by
  constructor
  · have h := claim7_partial_update emailOkTest urlOkTest
      [⟨1, "Ann", "Lee", "", "", "", "", "", "", "ann@x.com", ""⟩,
       ⟨2, "Bob", "Lim", "", "", "", "", "", "", "bob@x.com", ""⟩] 1
      ⟨0, "", "Xu", "", "", "", "", "", "", "", ""⟩
      ⟨1, "Ann", "Lee", "", "", "", "", "", "", "ann@x.com", ""⟩ (by rfl)
    have hs := h.1 (Or.inl rfl) (by decide)
    rw [hs]
    rfl
  · have h := claim7_partial_update emailOkTest urlOkTest
      [⟨1, "Ann", "Lee", "", "", "", "", "", "", "ann@x.com", ""⟩,
       ⟨2, "Bob", "Lim", "", "", "", "", "", "", "bob@x.com", ""⟩] 1
      ⟨0, "", "", "", "", "", "", "", "", "bob@x.com", ""⟩
      ⟨1, "Ann", "Lee", "", "", "", "", "", "", "ann@x.com", ""⟩ (by rfl)
    have hs := h.2.1 (by decide) (by decide) (by decide)
    rw [hs]
    rfl

/-- A storage outcome the batch loop survives: success, or a duplicate-key
failure. -/
def CreateOutcome.nonFatal : CreateOutcome → Bool
  | CreateOutcome.ok => true
  | CreateOutcome.err m => isDuplicateKeyError m

/-- A successful insert outcome. -/
def CreateOutcome.isInsert : CreateOutcome → Bool
  | CreateOutcome.ok => true
  | CreateOutcome.err _ => false

/-- A duplicate-key failure outcome (the record is skipped). -/
def CreateOutcome.isDupSkip : CreateOutcome → Bool
  | CreateOutcome.ok => false
  | CreateOutcome.err m => isDuplicateKeyError m

/-- The emails of the records whose outcome was a duplicate-key failure, in
batch order. -/
def dupEmailsOf (emps : List Employee) (outs : List CreateOutcome) : List String :=
  ((emps.zip outs).filter (fun p => p.2.isDupSkip)).map (fun p => p.1.email)

theorem batchRun_nonFatal (emps : List Employee) (outs : List CreateOutcome)
    (ins sk : Nat) (dups : List String)
    (hlen : emps.length = outs.length) (hnf : outs.all CreateOutcome.nonFatal = true) :
    batchRun emps outs ins sk dups =
      ⟨ins + (outs.filter CreateOutcome.isInsert).length,
       sk + (outs.filter CreateOutcome.isDupSkip).length,
       dups ++ dupEmailsOf emps outs, none⟩ := by
  induction emps generalizing outs ins sk dups with
  | nil =>
    have houts : outs = [] := List.length_eq_zero.mp hlen.symm
    subst houts
    simp [batchRun, dupEmailsOf]
  | cons e rest ih =>
    cases outs with
    | nil => simp at hlen
    | cons o os =>
      have hlen2 : rest.length = os.length := by simpa using hlen
      rw [List.all_cons, Bool.and_eq_true] at hnf
      cases o with
      | ok =>
        rw [batchRun]
        show batchRun rest os (ins + 1) sk dups = _
        rw [ih os (ins + 1) sk dups hlen2 hnf.2]
        simp only [dupEmailsOf, List.zip_cons_cons, List.filter_cons, CreateOutcome.isInsert,
          CreateOutcome.isDupSkip, Bool.false_eq_true, if_false, if_true, List.length_cons,
          eq_self_iff_true]
        congr 1
        omega
      | err m =>
        have hdup : isDuplicateKeyError m = true := by
          simpa [CreateOutcome.nonFatal] using hnf.1
        rw [batchRun]
        show (if isDuplicateKeyError m then batchRun rest os ins (sk + 1) (dups ++ [e.email])
          else ⟨ins, sk, dups, some m⟩) = _
        rw [if_pos hdup, ih os ins (sk + 1) (dups ++ [e.email]) hlen2 hnf.2]
        simp only [dupEmailsOf, List.zip_cons_cons, List.filter_cons, CreateOutcome.isInsert,
          CreateOutcome.isDupSkip, hdup, Bool.false_eq_true, if_false, if_true,
          List.length_cons, eq_self_iff_true, List.map_cons, List.append_assoc,
          List.singleton_append]
        congr 1
        omega

theorem batchRun_fatal (pre : List CreateOutcome) (m : String) (post : List CreateOutcome)
    (emps : List Employee) (ins sk : Nat) (dups : List String)
    (hlen : emps.length = (pre ++ CreateOutcome.err m :: post).length)
    (hnf : pre.all CreateOutcome.nonFatal = true)
    (hm : isDuplicateKeyError m = false) :
    batchRun emps (pre ++ CreateOutcome.err m :: post) ins sk dups =
      ⟨ins + (pre.filter CreateOutcome.isInsert).length,
       sk + (pre.filter CreateOutcome.isDupSkip).length,
       dups ++ dupEmailsOf (emps.take pre.length) pre, some m⟩ := by
  induction pre generalizing emps ins sk dups with
  | nil =>
    cases emps with
    | nil => simp at hlen
    | cons e rest =>
      rw [List.nil_append, batchRun]
      show (if isDuplicateKeyError m then batchRun rest post ins (sk + 1) (dups ++ [e.email])
        else ⟨ins, sk, dups, some m⟩) = _
      rw [if_neg (by simp [hm])]
      simp [dupEmailsOf]
  | cons o pre2 ih =>
    cases emps with
    | nil => simp at hlen
    | cons e rest =>
      have hlen2 : rest.length = (pre2 ++ CreateOutcome.err m :: post).length := by
        simpa using hlen
      rw [List.all_cons, Bool.and_eq_true] at hnf
      rw [List.cons_append]
      cases o with
      | ok =>
        rw [batchRun]
        show batchRun rest (pre2 ++ CreateOutcome.err m :: post) (ins + 1) sk dups = _
        rw [ih rest (ins + 1) sk dups hlen2 hnf.2]
        simp only [dupEmailsOf, List.length_cons, List.take_succ_cons, List.zip_cons_cons,
          List.filter_cons, CreateOutcome.isInsert, CreateOutcome.isDupSkip,
          Bool.false_eq_true, if_false, if_true, eq_self_iff_true]
        congr 1
        omega
      | err m2 =>
        have hdup : isDuplicateKeyError m2 = true := by
          simpa [CreateOutcome.nonFatal] using hnf.1
        rw [batchRun]
        show (if isDuplicateKeyError m2 then
            batchRun rest (pre2 ++ CreateOutcome.err m :: post) ins (sk + 1) (dups ++ [e.email])
          else ⟨ins, sk, dups, some m2⟩) = _
        rw [if_pos hdup, ih rest ins (sk + 1) (dups ++ [e.email]) hlen2 hnf.2]
        simp only [dupEmailsOf, List.length_cons, List.take_succ_cons, List.zip_cons_cons,
          List.filter_cons, CreateOutcome.isInsert, CreateOutcome.isDupSkip, hdup,
          Bool.false_eq_true, if_false, if_true, eq_self_iff_true, List.map_cons,
          List.append_assoc, List.singleton_append]
        congr 1
        omega

theorem filter_insert_dup_length (outs : List CreateOutcome)
    (hnf : outs.all CreateOutcome.nonFatal = true) :
    (outs.filter CreateOutcome.isInsert).length + (outs.filter CreateOutcome.isDupSkip).length
      = outs.length := by
  induction outs with
  | nil => simp
  | cons o os ih =>
    rw [List.all_cons, Bool.and_eq_true] at hnf
    have ih2 := ih hnf.2
    cases o with
    | ok =>
      simp [List.filter_cons, CreateOutcome.isInsert, CreateOutcome.isDupSkip]
      omega
    | err m =>
      have hdup : isDuplicateKeyError m = true := by
        simpa [CreateOutcome.nonFatal] using hnf.1
      simp [List.filter_cons, CreateOutcome.isInsert, CreateOutcome.isDupSkip, hdup]
      omega

/-- C4: batch persistence attempts records in order against the storage
outcome sequence; when every outcome is a success or a duplicate-key failure
the loop finishes with no error, the skipped records are exactly the
duplicate-key ones with their emails collected in order, and inserted plus
skipped account for the whole batch; the first non-duplicate failure ends the
loop, is returned as the error, and the counts returned partition exactly the
records attempted before it. -/
theorem claim4_batch_persistence (emps : List Employee) (outs : List CreateOutcome)
    (hlen : emps.length = outs.length) :
    (outs.all CreateOutcome.nonFatal = true →
      createEmployeesInBatchWithResult emps outs =
        ⟨(outs.filter CreateOutcome.isInsert).length,
         (outs.filter CreateOutcome.isDupSkip).length,
         dupEmailsOf emps outs, none⟩ ∧
      (outs.filter CreateOutcome.isInsert).length + (outs.filter CreateOutcome.isDupSkip).length
        = emps.length)
    ∧ (∀ pre m post, outs = pre ++ CreateOutcome.err m :: post →
        isDuplicateKeyError m = false → pre.all CreateOutcome.nonFatal = true →
        createEmployeesInBatchWithResult emps outs =
          ⟨(pre.filter CreateOutcome.isInsert).length,
           (pre.filter CreateOutcome.isDupSkip).length,
           dupEmailsOf (emps.take pre.length) pre, some m⟩ ∧
        (pre.filter CreateOutcome.isInsert).length + (pre.filter CreateOutcome.isDupSkip).length
          = pre.length) := by
  constructor
  · intro hnf
    refine ⟨by simpa using batchRun_nonFatal emps outs 0 0 [] hlen hnf, ?_⟩
    rw [filter_insert_dup_length outs hnf, hlen]
  · intro pre m post houts hm hnf
    subst houts
    refine ⟨by simpa using batchRun_fatal pre m post emps 0 0 [] hlen hnf hm, ?_⟩
    exact filter_insert_dup_length pre hnf

/-- C4 witness: a batch of three records whose storage outcomes are a success,
a duplicate-key failure and a connection failure yields inserted 1, skipped 1
with the duplicate email recorded, and surfaces the connection failure; the
two counts partition the two records attempted before the abort. -/
theorem claim4_witness :
    createEmployeesInBatchWithResult
        [⟨1, "Ann", "Lee", "", "", "", "", "", "", "ann@x.com", ""⟩,
         ⟨2, "Bob", "Lim", "", "", "", "", "", "", "bob@x.com", ""⟩,
         ⟨3, "Cal", "Kim", "", "", "", "", "", "", "cal@x.com", ""⟩]
        [CreateOutcome.ok, CreateOutcome.err (dupEntryMsg "bob@x.com"),
         CreateOutcome.err "connection refused"] =
      ⟨1, 1, ["bob@x.com"], some "connection refused"⟩ ∧ 1 + 1 = 2 := by
  have h := (claim4_batch_persistence
    [⟨1, "Ann", "Lee", "", "", "", "", "", "", "ann@x.com", ""⟩,
     ⟨2, "Bob", "Lim", "", "", "", "", "", "", "bob@x.com", ""⟩,
     ⟨3, "Cal", "Kim", "", "", "", "", "", "", "cal@x.com", ""⟩]
    [CreateOutcome.ok, CreateOutcome.err (dupEntryMsg "bob@x.com"),
     CreateOutcome.err "connection refused"] (by rfl)).2
    [CreateOutcome.ok, CreateOutcome.err (dupEntryMsg "bob@x.com")] "connection refused" []
    (by rfl) (by decide)
    (by simp [List.all_cons, CreateOutcome.nonFatal, isDuplicateKeyError_dupEntryMsg])
  refine ⟨?_, rfl⟩
  rw [h.1]
  rfl

/-- Number of non-empty data rows whose candidate record fails at least one
constraint. -/
def invalidRowCount (emailOk urlOk : String → Bool) (hm : HeaderMap)
    (dataRows : List (List String)) : Nat :=
  (dataRows.filter (fun r => !isRowEmpty r &&
    !(validateEmployeeData emailOk urlOk (employeeFromRow r hm)).isEmpty)).length

/-- Total number of field errors across the non-empty data rows. -/
def errorTotal (emailOk urlOk : String → Bool) (hm : HeaderMap)
    (dataRows : List (List String)) : Nat :=
  (dataRows.map (fun r => if isRowEmpty r then 0
    else (validateEmployeeData emailOk urlOk (employeeFromRow r hm)).length)).sum

theorem parseDataRows_cons_empty (emailOk urlOk : String → Bool) (hm : HeaderMap)
    (row : List String) (rest : List (List String)) (n : Nat) (hre : isRowEmpty row = true) :
    parseDataRows emailOk urlOk hm (row :: rest) n =
      parseDataRows emailOk urlOk hm rest (n + 1) := by
  rw [parseDataRows, if_pos hre]

theorem parseDataRows_cons_valid (emailOk urlOk : String → Bool) (hm : HeaderMap)
    (row : List String) (rest : List (List String)) (n : Nat)
    (hre : isRowEmpty row = false)
    (hv : validateEmployeeData emailOk urlOk (employeeFromRow row hm) = []) :
    parseDataRows emailOk urlOk hm (row :: rest) n =
      (employeeFromRow row hm :: (parseDataRows emailOk urlOk hm rest (n + 1)).1,
       (parseDataRows emailOk urlOk hm rest (n + 1)).2) := by
  rw [parseDataRows, hre]
  simp [parseEmployeeFromRow, hv]

theorem parseDataRows_cons_invalid (emailOk urlOk : String → Bool) (hm : HeaderMap)
    (row : List String) (rest : List (List String)) (n : Nat)
    (hre : isRowEmpty row = false)
    (hv : validateEmployeeData emailOk urlOk (employeeFromRow row hm) ≠ []) :
    parseDataRows emailOk urlOk hm (row :: rest) n =
      ((parseDataRows emailOk urlOk hm rest (n + 1)).1,
        (validateEmployeeData emailOk urlOk (employeeFromRow row hm)).map (rowQualify n)
          ++ (parseDataRows emailOk urlOk hm rest (n + 1)).2) := by
  have hlen :
      0 < ((validateEmployeeData emailOk urlOk (employeeFromRow row hm)).map (rowQualify n)).length := by
    rw [List.length_map]
    exact List.length_pos.mpr hv
  rw [parseDataRows, hre]
  simp only [Bool.false_eq_true, if_false, parseEmployeeFromRow, hlen, if_pos]

theorem parseDataRows_counts (emailOk urlOk : String → Bool) (hm : HeaderMap)
    (dataRows : List (List String)) (n : Nat) :
    (parseDataRows emailOk urlOk hm dataRows n).1.length
        + invalidRowCount emailOk urlOk hm dataRows
      = nonEmptyRowCount dataRows
    ∧ (parseDataRows emailOk urlOk hm dataRows n).2.length
      = errorTotal emailOk urlOk hm dataRows := by
  induction dataRows generalizing n with
  | nil => simp [parseDataRows, invalidRowCount, errorTotal, nonEmptyRowCount]
  | cons row rest ih =>
    have h := ih (n + 1)
    by_cases hre : isRowEmpty row = true
    · rw [parseDataRows_cons_empty emailOk urlOk hm row rest n hre]
      constructor
      · simp only [invalidRowCount, nonEmptyRowCount, List.filter_cons, hre, Bool.not_true,
          Bool.false_and, Bool.false_eq_true, if_false]
        exact h.1
      · simp only [errorTotal, List.map_cons, hre, if_true, List.sum_cons, Nat.zero_add]
        exact h.2
    · have hre2 : isRowEmpty row = false := by simpa using hre
      by_cases hv : validateEmployeeData emailOk urlOk (employeeFromRow row hm) = []
      · rw [parseDataRows_cons_valid emailOk urlOk hm row rest n hre2 hv]
        constructor
        · simp only [List.length_cons, invalidRowCount, nonEmptyRowCount, List.filter_cons,
            hre2, hv, Bool.not_false, Bool.true_and, List.isEmpty_nil, Bool.not_true,
            Bool.false_eq_true, if_false, if_true]
          have h1 := h.1
          simp only [invalidRowCount, nonEmptyRowCount] at h1
          omega
        · simp only [errorTotal, List.map_cons, hre2, Bool.false_eq_true, if_false, hv,
            List.length_nil, List.sum_cons, Nat.zero_add]
          exact h.2
      · rw [parseDataRows_cons_invalid emailOk urlOk hm row rest n hre2 hv]
        constructor
        · simp only [invalidRowCount, nonEmptyRowCount, List.filter_cons, hre2, hv,
            Bool.not_false, Bool.true_and, List.isEmpty_eq_true, if_true, List.length_cons]
          have h1 := h.1
          simp only [invalidRowCount, nonEmptyRowCount] at h1
          have hcond : (!(validateEmployeeData emailOk urlOk (employeeFromRow row hm)).isEmpty)
              = true := by
            simp [List.isEmpty_iff, hv]
          simp only [hcond, if_true, List.length_cons]
          omega
        · simp only [List.length_append, List.length_map, errorTotal, List.map_cons, hre2,
            Bool.false_eq_true, if_false, List.sum_cons]
          have h2 := h.2
          simp only [errorTotal] at h2
          omega

/-- C1 (amended): for a file that parses successfully the summary has
total = (rows passing validation) + (number of validation-error entries) and
invalid = (number of validation-error entries) — so a row violating k
constraints contributes k to both, rather than one — while all-blank rows are
excluded (valid rows plus invalid rows partition the non-empty data rows);
and after a successful persistence pass the valid count is redefined to the
inserted count. -/
theorem claim1_upload_counts (emailOk urlOk : String → Bool) (rows : List (List String))
    (outs : List CreateOutcome) (emps : List Employee) (verrs : List ValidationError)
    (hm : HeaderMap)
    (hh : validateAndMapHeaders (rows.headD []) = Except.ok hm)
    (hp : parseExcelContent emailOk urlOk rows = Except.ok (emps, verrs)) :
    ∃ resp, processExcelFile emailOk urlOk rows outs = Except.ok resp ∧
      resp.totalRecords = emps.length + verrs.length ∧
      resp.invalidRecords = verrs.length ∧
      verrs.length = errorTotal emailOk urlOk hm (rows.drop 1) ∧
      emps.length + invalidRowCount emailOk urlOk hm (rows.drop 1)
        = nonEmptyRowCount (rows.drop 1) ∧
      (emps.length > 0 → (createEmployeesInBatchWithResult emps outs).err = none →
        resp.validRecords = (createEmployeesInBatchWithResult emps outs).inserted) := by
  have hpair : parseDataRows emailOk urlOk hm (rows.drop 1) 2 = (emps, verrs) := by
    rw [parseExcelContent] at hp
    split at hp
    · exact absurd hp (by simp)
    · rw [hh] at hp
      simpa using hp
  have hcounts := parseDataRows_counts emailOk urlOk hm (rows.drop 1) 2
  rw [hpair] at hcounts
  have hc1 : emps.length + invalidRowCount emailOk urlOk hm (rows.drop 1)
      = nonEmptyRowCount (rows.drop 1) := hcounts.1
  have hc2 : verrs.length = errorTotal emailOk urlOk hm (rows.drop 1) := hcounts.2
  rw [processExcelFile, hp]
  by_cases hne : emps.length > 0
  · rcases herr : (createEmployeesInBatchWithResult emps outs).err with _ | m
    · simp only [hne, if_true, herr]
      exact ⟨_, rfl, rfl, rfl, hc2, hc1, fun _ _ => rfl⟩
    · simp only [hne, if_true, herr]
      exact ⟨_, rfl, rfl, rfl, hc2, hc1, fun _ hnone => absurd hnone (by simp)⟩
  · simp only [hne, if_false]
    exact ⟨_, rfl, rfl, rfl, hc2, hc1, fun hgt _ => hgt.elim⟩

/-- The upload summary ProcessExcelFile returns on a one-data-row file whose
single non-empty row carries two violations: both total and invalid are 2. -/
def respC1A : ExcelUploadResponse :=
  ⟨"No valid employee records found in the Excel file", 2, 0, 2, 0, 0, []⟩

/-- The summary for two valid rows of which the second hits a duplicate at
persistence: the valid count is redefined from 2 to the inserted count 1. -/
def respC1B : ExcelUploadResponse :=
  ⟨"Successfully processed 2 records. Inserted: 1 new employees, Skipped: 1 duplicates (bob@x.com), Invalid: 0",
   2, 1, 0, 1, 1, ["bob@x.com"]⟩

/-- C1 counterexample: the file with header first_name, last_name, email and
the single data row ("Jo", "", "") — one non-empty data row violating two
constraints — produces total = 2 and invalid = 2, not 1 and 1 as the claim
states; and for two valid rows with one persisted duplicate the summary's
valid count is redefined after persistence from 2 to 1. -/
theorem claim1_counterexample :
    processExcelFile emailOkTest urlOkTest
        [["first_name", "last_name", "email"], ["Jo", "", ""]] [] = Except.ok respC1A ∧
    respC1A.totalRecords = 2 ∧ respC1A.invalidRecords = 2 ∧
    nonEmptyRowCount [["Jo", "", ""]] = 1 ∧
    (parseExcelContent emailOkTest urlOkTest
        [["first_name", "last_name", "email"],
         ["Ann", "Lee", "ann@x.com"], ["Bob", "Lim", "bob@x.com"]]).map (fun p => p.1.length)
      = Except.ok 2 ∧
    processExcelFile emailOkTest urlOkTest
        [["first_name", "last_name", "email"],
         ["Ann", "Lee", "ann@x.com"], ["Bob", "Lim", "bob@x.com"]]
        [CreateOutcome.ok, CreateOutcome.err (dupEntryMsg "bob@x.com")]
      = Except.ok respC1B ∧
    respC1B.validRecords = 1 := by
  refine ⟨?_, rfl, rfl, by decide, ?_, ?_, rfl⟩
  · rfl
  · rfl
  · rfl

/-- C1 witness: on the two-valid-row file the amended count equations hold
with zero errors and zero invalid rows among the two non-empty data rows. -/
theorem claim1_witness :
    (0 : Nat) = errorTotal emailOkTest urlOkTest
        (buildHeaderMap ["first_name", "last_name", "email"])
        [["Ann", "Lee", "ann@x.com"], ["Bob", "Lim", "bob@x.com"]] ∧
    (2 : Nat) + invalidRowCount emailOkTest urlOkTest
        (buildHeaderMap ["first_name", "last_name", "email"])
        [["Ann", "Lee", "ann@x.com"], ["Bob", "Lim", "bob@x.com"]]
      = nonEmptyRowCount [["Ann", "Lee", "ann@x.com"], ["Bob", "Lim", "bob@x.com"]] := by
  obtain ⟨resp, -, -, -, h4, h5, -⟩ := claim1_upload_counts emailOkTest urlOkTest
    [["first_name", "last_name", "email"],
     ["Ann", "Lee", "ann@x.com"], ["Bob", "Lim", "bob@x.com"]] []
    [⟨0, "Ann", "Lee", "", "", "", "", "", "", "ann@x.com", ""⟩,
     ⟨0, "Bob", "Lim", "", "", "", "", "", "", "bob@x.com", ""⟩] []
    (buildHeaderMap ["first_name", "last_name", "email"]) (by rfl) (by rfl)
  exact ⟨h4, h5⟩

/-- The summary ProcessExcelFile returns when the batch aborts with a
non-duplicate storage failure: a success value whose message reports the
failure and whose inserted and skipped counts are zero. -/
def respC5 : ExcelUploadResponse :=
  ⟨"Processed 1 records, but failed to save to database: connection refused",
   1, 1, 0, 0, 0, []⟩

/-- C5 counterexample: with one valid row and a storage outcome that is a
non-duplicate failure, ProcessExcelFile returns a success result carrying an
Upload Summary — the failure is not propagated to the caller as an error, and
a summary is returned as a success result, contrary to the claim. -/
theorem claim5_counterexample :
    processExcelFile emailOkTest urlOkTest
        [["first_name", "last_name", "email"], ["Ann", "Lee", "ann@x.com"]]
        [CreateOutcome.err "connection refused"] = Except.ok respC5 := by
  rfl

/-- C5 (amended): a non-duplicate storage failure aborts the remaining batch
inside the persistence layer and reaches the orchestrator, but the
orchestrator does not propagate it: ProcessExcelFile returns a success
summary whose message reports the save failure, with inserted and skipped
zero and the valid count left at its pre-persistence value. -/
theorem claim5_storage_failure (emailOk urlOk : String → Bool) (rows : List (List String))
    (outs : List CreateOutcome) (emps : List Employee) (verrs : List ValidationError)
    (m : String)
    (hp : parseExcelContent emailOk urlOk rows = Except.ok (emps, verrs))
    (hne : emps.length > 0)
    (hf : (createEmployeesInBatchWithResult emps outs).err = some m) :
    processExcelFile emailOk urlOk rows outs = Except.ok
      ⟨"Processed " ++ toString (emps.length + verrs.length) ++
          " records, but failed to save to database: " ++ m,
        emps.length + verrs.length, emps.length, verrs.length, 0, 0, []⟩ := by
  rw [processExcelFile, hp]
  simp only [hne, if_true, hf]

/-- C5 witness: the amended behaviour evaluated on the one-valid-row file with
a connection failure as the storage outcome. -/
theorem claim5_witness :
    processExcelFile emailOkTest urlOkTest
        [["first_name", "last_name", "email"], ["Ann", "Lee", "ann@x.com"]]
        [CreateOutcome.err "disk full"] = Except.ok
      ⟨"Processed 1 records, but failed to save to database: disk full",
       1, 1, 0, 0, 0, []⟩ := by
  have h := claim5_storage_failure emailOkTest urlOkTest
    [["first_name", "last_name", "email"], ["Ann", "Lee", "ann@x.com"]]
    [CreateOutcome.err "disk full"]
    [⟨0, "Ann", "Lee", "", "", "", "", "", "", "ann@x.com", ""⟩] [] "disk full"
    (by rfl) (by decide) (by rfl)
  rw [h]
  rfl

/-- C8 counterexample: the structure-only endpoint returns bit-for-bit the
same response whether or not the data row's email is already in storage — its
result is a message plus the non-empty-row count and reflects no per-row
duplicate preview, contrary to the claim's final clause. -/
theorem claim8_counterexample :
    validateExcelStructure ["ann@x.com"]
        [["first_name", "last_name", "email"], ["Ann", "Lee", "ann@x.com"]] =
      validateExcelStructure []
        [["first_name", "last_name", "email"], ["Ann", "Lee", "ann@x.com"]] ∧
    validateExcelStructure ["ann@x.com"]
        [["first_name", "last_name", "email"], ["Ann", "Lee", "ann@x.com"]] =
      Except.ok
        ⟨"Excel validation successful. File structure is valid with 1 data rows and correct headers",
         1⟩ := by
  exact ⟨rfl, rfl⟩

/-- C8 (amended): structure-only validation performs no storage access at all
— in particular it never mutates storage and does not even run the read-only
per-row duplicate lookups — so its response is a pure function of the file
rows, identical under every storage state (hence two consecutive runs yield
identical counts): the header check plus the count of non-empty data rows,
with no duplicate preview in the result. -/
theorem claim8_structure_validation (db db2 : List String) (rows : List (List String)) :
    validateExcelStructure db rows = validateExcelStructure db2 rows ∧
    (1 < rows.length → ∀ hm, validateAndMapHeaders (rows.headD []) = Except.ok hm →
      validateExcelStructure db rows = Except.ok
        ⟨"Excel validation successful. File structure is valid with " ++
            toString (nonEmptyRowCount (rows.drop 1)) ++ " data rows and correct headers",
          nonEmptyRowCount (rows.drop 1)⟩) ∧
    (rows.length ≤ 1 →
      validateExcelStructure db rows = Except.ok ⟨"Excel file appears to be empty", 0⟩) := by
  refine ⟨rfl, ?_, ?_⟩
  · intro hlen hm hh
    rw [validateExcelStructure, if_neg (by omega), hh]
  · intro hlen
    rw [validateExcelStructure, if_pos hlen]

/-- C8 witness: on a file with one non-empty and one blank data row the
structure-only response is the success message with count 1, independent of a
non-empty storage state. -/
theorem claim8_witness :
    validateExcelStructure ["x@y.com"]
        [["first_name", "last_name", "email"], ["Ann", "Lee", "ann@x.com"], ["", " ", ""]] =
      Except.ok
        ⟨"Excel validation successful. File structure is valid with 1 data rows and correct headers",
         1⟩ := by
  have h := (claim8_structure_validation ["x@y.com"] []
      [["first_name", "last_name", "email"], ["Ann", "Lee", "ann@x.com"], ["", " ", ""]]).2.1
    (by decide) (buildHeaderMap ["first_name", "last_name", "email"]) (by rfl)
  rw [h]
  rfl

/-- The records of the batch whose email is already in storage. -/
def dupRecords (db : List String) (emps : List Employee) : List Employee :=
  emps.filter (fun e => memStr e.email db)

/-- The emails a batch adds to storage (records whose email is new), in
order. -/
def newEmails (db : List String) (emps : List Employee) : List String :=
  (emps.filter (fun e => !memStr e.email db)).map Employee.email

theorem filter_not_split {α : Type} (p : α → Bool) (l : List α) :
    (l.filter p).length + (l.filter (fun a => !p a)).length = l.length := by
  induction l with
  | nil => simp
  | cons a l ih =>
    by_cases hp : p a = true
    · simp only [List.filter_cons, hp, Bool.not_true, Bool.false_eq_true, if_false, if_true,
        List.length_cons]
      omega
    · have hp2 : p a = false := by simpa using hp
      simp only [List.filter_cons, hp2, Bool.not_false, Bool.false_eq_true, if_false, if_true,
        List.length_cons]
      omega

theorem mysql_batchRun (emps : List Employee) (db : List String)
    (ins sk : Nat) (dups : List String)
    (hnd : (newEmails db emps).Nodup) :
    batchRun emps (mysqlOuts db emps) ins sk dups =
      ⟨ins + (emps.filter (fun e => !memStr e.email db)).length,
       sk + (dupRecords db emps).length,
       dups ++ (dupRecords db emps).map Employee.email, none⟩ := by
  induction emps generalizing db ins sk dups with
  | nil => simp [mysqlOuts, batchRun, dupRecords]
  | cons e rest ih =>
    by_cases hc : memStr e.email db = true
    · have hnd2 : (newEmails db rest).Nodup := by
        have heq : newEmails db (e :: rest) = newEmails db rest := by
          simp only [newEmails, List.filter_cons, hc, Bool.not_true, Bool.false_eq_true,
            if_false]
        rwa [heq] at hnd
      rw [mysqlOuts, if_pos hc, batchRun]
      show (if isDuplicateKeyError (dupEntryMsg e.email) then
          batchRun rest (mysqlOuts db rest) ins (sk + 1) (dups ++ [e.email])
        else ⟨ins, sk, dups, some (dupEntryMsg e.email)⟩) = _
      rw [if_pos (isDuplicateKeyError_dupEntryMsg e.email)]
      rw [ih db (ins) (sk + 1) (dups ++ [e.email]) hnd2]
      simp only [dupRecords, List.filter_cons, hc, Bool.not_true, Bool.false_eq_true, if_false,
        if_true, List.length_cons, List.map_cons, List.append_assoc, List.singleton_append]
      congr 1
      omega
    · have hc2 : memStr e.email db = false := by simpa using hc
      have hne2 : newEmails db (e :: rest) = e.email :: newEmails db rest := by
        simp only [newEmails, List.filter_cons, hc2, Bool.not_false, if_true, List.map_cons]
      rw [hne2, List.nodup_cons] at hnd
      have hptw : ∀ r ∈ rest, memStr r.email (e.email :: db) = memStr r.email db := by
        intro r hr
        by_cases hrd : memStr r.email db = true
        · show (r.email == e.email || memStr r.email db) = memStr r.email db
          rw [hrd]
          simp
        · have hrd2 : memStr r.email db = false := by simpa using hrd
          have hrne : (r.email == e.email) = false := by
            have hmem : r.email ∈ newEmails db rest := by
              simp only [newEmails, List.mem_map]
              exact ⟨r, List.mem_filter.mpr ⟨hr, by rw [hrd2]; rfl⟩, rfl⟩
            have hne3 : r.email ≠ e.email := fun heq => hnd.1 (heq ▸ hmem)
            simpa using hne3
          show (r.email == e.email || memStr r.email db) = memStr r.email db
          rw [hrd2, hrne]
          rfl
      have hfd : rest.filter (fun r => memStr r.email (e.email :: db))
          = rest.filter (fun r => memStr r.email db) :=
        List.filter_congr (fun r hr => hptw r hr)
      have hfn : rest.filter (fun r => !memStr r.email (e.email :: db))
          = rest.filter (fun r => !memStr r.email db) :=
        List.filter_congr (fun r hr => by rw [hptw r hr])
      have hnd3 : (newEmails (e.email :: db) rest).Nodup := by
        have heq : newEmails (e.email :: db) rest = newEmails db rest := by
          simp only [newEmails, hfn]
        rw [heq]
        exact hnd.2
      rw [mysqlOuts, if_neg (by simp [hc2]), batchRun]
      show batchRun rest (mysqlOuts (e.email :: db) rest) (ins + 1) sk dups = _
      rw [ih (e.email :: db) (ins + 1) sk dups hnd3]
      simp only [dupRecords, newEmails, hfd, hfn, List.filter_cons, hc2, Bool.not_false,
        if_true, Bool.false_eq_true, if_false, List.length_cons]
      congr 1
      omega

/-- The records the MySQL run classifies as duplicates at their attempt
time: the email is already in storage, or was inserted by an earlier record
of the same batch within the same transaction. -/
def dupRecordsRun : List String → List Employee → List Employee
  | _, [] => []
  | db, e :: rest =>
    if memStr e.email db then e :: dupRecordsRun db rest
    else dupRecordsRun (e.email :: db) rest

/-- The number of records the MySQL run inserts. -/
def newCountRun : List String → List Employee → Nat
  | _, [] => 0
  | db, e :: rest =>
    if memStr e.email db then newCountRun db rest
    else newCountRun (e.email :: db) rest + 1

theorem mysql_batchRun_all (emps : List Employee) (db : List String)
    (ins sk : Nat) (dups : List String) :
    batchRun emps (mysqlOuts db emps) ins sk dups =
      ⟨ins + newCountRun db emps,
       sk + (dupRecordsRun db emps).length,
       dups ++ (dupRecordsRun db emps).map Employee.email, none⟩ := by
  induction emps generalizing db ins sk dups with
  | nil => simp [mysqlOuts, batchRun, dupRecordsRun, newCountRun]
  | cons e rest ih =>
    by_cases hc : memStr e.email db = true
    · rw [mysqlOuts, if_pos hc, batchRun]
      show (if isDuplicateKeyError (dupEntryMsg e.email) then
          batchRun rest (mysqlOuts db rest) ins (sk + 1) (dups ++ [e.email])
        else ⟨ins, sk, dups, some (dupEntryMsg e.email)⟩) = _
      rw [if_pos (isDuplicateKeyError_dupEntryMsg e.email),
        ih db ins (sk + 1) (dups ++ [e.email])]
      simp only [dupRecordsRun, newCountRun, hc, if_true, List.length_cons, List.map_cons,
        List.append_assoc, List.singleton_append]
      congr 1
      omega
    · have hc2 : memStr e.email db = false := by simpa using hc
      rw [mysqlOuts, if_neg (by simp [hc2]), batchRun]
      show batchRun rest (mysqlOuts (e.email :: db) rest) (ins + 1) sk dups = _
      rw [ih (e.email :: db) (ins + 1) sk dups]
      simp only [dupRecordsRun, newCountRun, hc2, Bool.false_eq_true, if_false]
      congr 1
      omega

theorem newCountRun_add_dup (emps : List Employee) (db : List String) :
    newCountRun db emps + (dupRecordsRun db emps).length = emps.length := by
  induction emps generalizing db with
  | nil => simp [newCountRun, dupRecordsRun]
  | cons e rest ih =>
    by_cases hc : memStr e.email db = true
    · have h := ih db
      simp only [newCountRun, dupRecordsRun, hc, if_true, List.length_cons]
      omega
    · have hc2 : memStr e.email db = false := by simpa using hc
      have h := ih (e.email :: db)
      simp only [newCountRun, dupRecordsRun, hc2, Bool.false_eq_true, if_false,
        List.length_cons]
      omega

theorem dupRecords_sublist_run (emps : List Employee) (db db2 : List String)
    (hsub : ∀ x, memStr x db = true → memStr x db2 = true) :
    List.Sublist (emps.filter (fun e => memStr e.email db)) (dupRecordsRun db2 emps) := by
  induction emps generalizing db2 with
  | nil => simp [dupRecordsRun]
  | cons e rest ih =>
    by_cases hc : memStr e.email db = true
    · have hc2 : memStr e.email db2 = true := hsub e.email hc
      rw [dupRecordsRun, if_pos hc2]
      simp only [List.filter_cons, hc, if_true]
      exact List.Sublist.cons₂ e (ih db2 hsub)
    · have hc3 : memStr e.email db = false := by simpa using hc
      simp only [List.filter_cons, hc3, Bool.false_eq_true, if_false]
      rw [dupRecordsRun]
      by_cases hd : memStr e.email db2 = true
      · rw [if_pos hd]
        exact List.Sublist.cons e (ih db2 hsub)
      · rw [if_neg hd]
        apply ih (e.email :: db2)
        intro x hx
        show (x == e.email || memStr x db2) = true
        rw [hsub x hx]
        simp

/-- C6 (amended): for a batch of validated records against a MySQL-style
store, the summary reports as skipped exactly the records whose email was
already present at their attempt time — records whose email pre-exists in
storage plus records duplicating an earlier record of the same batch — so
skipped is at least M (the records whose email pre-exists in storage), with
equality when the batch's not-yet-stored emails are pairwise distinct;
inserted and skipped partition the valid records; the duplicate-email list
carries the email of each skipped record in encounter order — one entry per
skipped row, repeats possible, not at most once per distinct email —
truncated to the first 10 entries, and when more than 10 duplicates occurred
the overflow count appears in the summary message. -/
theorem claim6_duplicate_batch (emailOk urlOk : String → Bool) (db : List String)
    (rows : List (List String)) (emps : List Employee) (verrs : List ValidationError)
    (hp : parseExcelContent emailOk urlOk rows = Except.ok (emps, verrs))
    (hne : emps.length > 0) :
    ∃ resp, processExcelFile emailOk urlOk rows (mysqlOuts db emps) = Except.ok resp ∧
      resp.skippedRecords = (dupRecordsRun db emps).length ∧
      resp.insertedRecords + resp.skippedRecords = emps.length ∧
      (dupRecords db emps).length ≤ resp.skippedRecords ∧
      ((newEmails db emps).Nodup → resp.skippedRecords = (dupRecords db emps).length) ∧
      resp.duplicateEmails = ((dupRecordsRun db emps).map Employee.email).take 10 ∧
      (10 < (dupRecordsRun db emps).length →
        containsSub resp.message
          (" and " ++ toString ((dupRecordsRun db emps).length - 10) ++ " more)") = true) := by
  have hr : createEmployeesInBatchWithResult emps (mysqlOuts db emps) =
      ⟨newCountRun db emps, (dupRecordsRun db emps).length,
       (dupRecordsRun db emps).map Employee.email, none⟩ := by
    simpa using mysql_batchRun_all emps db 0 0 []
  have hDlen : ((dupRecordsRun db emps).map Employee.email).length
      = (dupRecordsRun db emps).length := List.length_map _ _
  rw [processExcelFile, hp]
  simp only [hne, if_true, hr]
  refine ⟨_, rfl, rfl, ?_, ?_, ?_, ?_, ?_⟩
  · exact newCountRun_add_dup emps db
  · exact List.Sublist.length_le (dupRecords_sublist_run emps db db (fun x hx => hx))
  · intro hnd
    have h1 := mysql_batchRun emps db 0 0 [] hnd
    have h2 := mysql_batchRun_all emps db 0 0 []
    rw [h1] at h2
    have h3 := congrArg BatchResult.skipped h2
    simpa using h3.symm
  · simp only [maxDuplicatesToShow]
    by_cases hd : ((dupRecordsRun db emps).map Employee.email).length > 10
    · rw [if_pos hd]
    · rw [if_neg hd, List.take_of_length_le (by omega)]
  · intro hM
    rw [if_pos (by omega : (dupRecordsRun db emps).length > 0)]
    rw [duplicateEmailsText, if_neg (by omega), if_pos (by
      simp only [maxDuplicatesToShow]
      omega)]
    apply containsSub_of_decomp _
      ("Successfully processed " ++ toString (emps.length + verrs.length) ++
        " records. Inserted: " ++ toString (newCountRun db emps) ++
        " new employees, Skipped: " ++ toString ((dupRecordsRun db emps).length) ++
        " duplicates" ++ " (examples: " ++
        joinSep ", " (((dupRecordsRun db emps).map Employee.email).take maxDuplicatesToShow))
      _ (", Invalid: " ++ toString verrs.length)
    apply String.ext
    simp only [hDlen, maxDuplicatesToShow, String.data_append, List.append_assoc]

/-- The summary for a batch of two valid rows sharing an email that is
already in storage: both rows are skipped and the shared email appears twice
in the duplicate list. -/
def respC6 : ExcelUploadResponse :=
  ⟨"Successfully processed 2 records. Inserted: 0 new employees, Skipped: 2 duplicates (ann@x.com, ann@x.com), Invalid: 0",
   2, 0, 0, 0, 2, ["ann@x.com", "ann@x.com"]⟩

/-- The summary for the same two rows against empty storage: the second row
duplicates the first inside the batch, so one record is skipped although no
email pre-existed in storage. -/
def respC6B : ExcelUploadResponse :=
  ⟨"Successfully processed 2 records. Inserted: 1 new employees, Skipped: 1 duplicates (ann@x.com), Invalid: 0",
   2, 1, 0, 1, 1, ["ann@x.com"]⟩

/-- C6 counterexample: two valid rows share the email ann@x.com.  With that
email already in storage the duplicate-email list carries it twice, so the
list does not contain each distinct duplicate email at most once; and with
empty storage (M = 0 records whose email already exists) the summary still
reports skipped = 1, refuting skipped = M, because the second row collides
with the first row's insert inside the batch. -/
theorem claim6_counterexample :
    processExcelFile emailOkTest urlOkTest
        [["first_name", "last_name", "email"],
         ["Ann", "Lee", "ann@x.com"], ["Bob", "Lim", "ann@x.com"]]
        (mysqlOuts ["ann@x.com"]
          [⟨0, "Ann", "Lee", "", "", "", "", "", "", "ann@x.com", ""⟩,
           ⟨0, "Bob", "Lim", "", "", "", "", "", "", "ann@x.com", ""⟩])
      = Except.ok respC6 ∧
    respC6.duplicateEmails.count "ann@x.com" = 2 ∧
    processExcelFile emailOkTest urlOkTest
        [["first_name", "last_name", "email"],
         ["Ann", "Lee", "ann@x.com"], ["Bob", "Lim", "ann@x.com"]]
        (mysqlOuts []
          [⟨0, "Ann", "Lee", "", "", "", "", "", "", "ann@x.com", ""⟩,
           ⟨0, "Bob", "Lim", "", "", "", "", "", "", "ann@x.com", ""⟩])
      = Except.ok respC6B ∧
    respC6B.skippedRecords = 1 ∧
    (dupRecords []
      [⟨0, "Ann", "Lee", "", "", "", "", "", "", "ann@x.com", ""⟩,
       ⟨0, "Bob", "Lim", "", "", "", "", "", "", "ann@x.com", ""⟩]).length = 0 := by
  exact ⟨rfl, rfl, rfl, rfl, rfl⟩

/-- The summary for one new row and one row whose email bob@x.com is already
stored. -/
def respC6W : ExcelUploadResponse :=
  ⟨"Successfully processed 2 records. Inserted: 1 new employees, Skipped: 1 duplicates (bob@x.com), Invalid: 0",
   2, 1, 0, 1, 1, ["bob@x.com"]⟩

/-- C6 witness: on a batch with one stored-duplicate record and one new
record the summary reports skipped 1 (the attempt-time duplicate count),
inserted and skipped partition the two records, and the duplicate email is
listed. -/
theorem claim6_witness :
    respC6W.skippedRecords =
      (dupRecordsRun ["bob@x.com"]
        [⟨0, "Ann", "Lee", "", "", "", "", "", "", "ann@x.com", ""⟩,
         ⟨0, "Bob", "Lim", "", "", "", "", "", "", "bob@x.com", ""⟩]).length ∧
    respC6W.insertedRecords + respC6W.skippedRecords = 2 ∧
    respC6W.duplicateEmails = ["bob@x.com"] := by
  obtain ⟨resp, heq, hskip, hpart, hle, hndq, hdups, hover⟩ :=
    claim6_duplicate_batch emailOkTest urlOkTest ["bob@x.com"]
      [["first_name", "last_name", "email"],
       ["Ann", "Lee", "ann@x.com"], ["Bob", "Lim", "bob@x.com"]]
      [⟨0, "Ann", "Lee", "", "", "", "", "", "", "ann@x.com", ""⟩,
       ⟨0, "Bob", "Lim", "", "", "", "", "", "", "bob@x.com", ""⟩] []
      (by rfl) (by decide)
  have hv : processExcelFile emailOkTest urlOkTest
      [["first_name", "last_name", "email"],
       ["Ann", "Lee", "ann@x.com"], ["Bob", "Lim", "bob@x.com"]]
      (mysqlOuts ["bob@x.com"]
        [⟨0, "Ann", "Lee", "", "", "", "", "", "", "ann@x.com", ""⟩,
         ⟨0, "Bob", "Lim", "", "", "", "", "", "", "bob@x.com", ""⟩]) = Except.ok respC6W := by
    rfl
  rw [hv] at heq
  injection heq with heq2
  subst heq2
  refine ⟨hskip, by simpa using hpart, ?_⟩
  rw [hdups]
  rfl

end EmpMgmt